import Mathlib

/-!
Shallow embedding of the arduino_data_logger sketch: the Sample Record
(data.h), the MPU6050 initialization and burst read (fast_mpu6050.h), and
the tagged serial framing protocol (send.h).  Serial output is modelled as
the list of bytes written to the transport; I2C traffic is modelled as a
list of bus commands plus the device's response bytes.
-/

namespace DataLogger

/-- Byte rendering of a string argument: the ASCII code points, which is
what Serial.print emits for a string literal. -/
def strBytes (s : String) : List Nat := s.data.map Char.toNat

/-- Reinterpretation of the low 16 bits of a natural number as a
twos-complement signed 16-bit value, as the AVR conversion from int to
int16_t does. -/
def toInt16 (n : Nat) : Int :=
  if n % 65536 < 32768 then ((n % 65536 : Nat) : Int)
  else ((n % 65536 : Nat) : Int) - 65536

/-- The 16-bit twos-complement memory image of a signed value, as an
int16_t is stored on the AVR. -/
def int16Bits (i : Int) : Nat := (i % 65536).toNat

/-- struct Data from data.h: one Sample Record.  Field names follow the
source; unsigned fields are Nat, the signed 16-bit motion fields are Int. -/
structure Data where
  micros : Nat
  analog : Nat
  btn_0 : Nat
  btn_1 : Nat
  lin_acc_x : Int
  lin_acc_y : Int
  lin_acc_z : Int
  rot_vel_x : Int
  rot_vel_y : Int
  rot_vel_z : Int
  deriving DecidableEq

/-- Range invariant of a Sample Record: every field fits its declared C
type (uint32_t, uint16_t, uint8_t, int16_t). -/
def dataValid (d : Data) : Prop :=
  d.micros < 4294967296 ∧ d.analog < 65536 ∧ d.btn_0 < 256 ∧ d.btn_1 < 256 ∧
  (-32768 ≤ d.lin_acc_x ∧ d.lin_acc_x < 32768) ∧
  (-32768 ≤ d.lin_acc_y ∧ d.lin_acc_y < 32768) ∧
  (-32768 ≤ d.lin_acc_z ∧ d.lin_acc_z < 32768) ∧
  (-32768 ≤ d.rot_vel_x ∧ d.rot_vel_x < 32768) ∧
  (-32768 ≤ d.rot_vel_y ∧ d.rot_vel_y < 32768) ∧
  (-32768 ≤ d.rot_vel_z ∧ d.rot_vel_z < 32768)

instance (d : Data) : Decidable (dataValid d) := by
  unfold dataValid; infer_instance

/-- Little-endian bytes of a 16-bit value, as the AVR stores a uint16_t. -/
def le16 (n : Nat) : List Nat := [n % 256, n / 256 % 256]

/-- Little-endian bytes of a 32-bit value, as the AVR stores a uint32_t. -/
def le32 (n : Nat) : List Nat :=
  [n % 256, n / 256 % 256, n / 65536 % 256, n / 16777216 % 256]

/-- The raw memory bytes of a struct Data on the AVR target: little-endian,
packed with no padding, fields in declaration order.  This is what
SendData's write of sizeof(struct Data) bytes from the record address
transmits. -/
def serializeData (d : Data) : List Nat :=
  le32 d.micros ++ le16 d.analog ++ [d.btn_0 % 256, d.btn_1 % 256] ++
  le16 (int16Bits d.lin_acc_x) ++ le16 (int16Bits d.lin_acc_y) ++
  le16 (int16Bits d.lin_acc_z) ++
  le16 (int16Bits d.rot_vel_x) ++ le16 (int16Bits d.rot_vel_y) ++
  le16 (int16Bits d.rot_vel_z)

/-! Frame tag bytes from send.h. -/

def BYTE_MESSAGE : Nat := 0

def BYTE_DATA_START : Nat := 1

def BYTE_DATA_ELEMENT : Nat := 2

def BYTE_DATA_END : Nat := 3

def BYTE_HEARTBEAT : Nat := 250

def BYTE_ERROR : Nat := 255

/-- The variadic helper in send.h, printing each argument in order.
Arguments are modelled by their rendered byte strings. -/
def vsendBytes : List (List Nat) → List Nat
  | [] => []
  | a :: rest => a ++ vsendBytes rest

/-- Send from send.h: tag byte, the arguments' renderings, zero byte. -/
def sendBytes (args : List (List Nat)) : List Nat :=
  BYTE_MESSAGE :: (vsendBytes args ++ [0])

/-- SendLine from send.h: like Send with a line feed written before the
zero byte. -/
def sendLineBytes (args : List (List Nat)) : List Nat :=
  BYTE_MESSAGE :: (vsendBytes args ++ [10, 0])

/-- One hexadecimal digit character, as Arduino Print renders it:
0-9 then uppercase A-F. -/
def hexChar (d : Nat) : Nat := if d < 10 then 48 + d else 55 + d

/-- The hexadecimal digits of n, least significant first, as produced by
the digit loop of Arduino Print: at least one digit, no leading zeros. -/
def hexRevDigits (n : Nat) : List Nat :=
  if h : n < 16 then [n]
  else
    have : n / 16 < n := Nat.div_lt_self (by omega) (by omega)
    n % 16 :: hexRevDigits (n / 16)

/-- The byte rendering Serial.print gives a number with base HEX:
minimal-width digits, most significant first, uppercase. -/
def printHexBytes (n : Nat) : List Nat := (hexRevDigits n).reverse.map hexChar

/-- SendErrorCode from send.h: Message tag, fixed text, hexadecimal
rendering of the code, line feed, zero terminator. -/
def sendErrorCodeBytes (b : Nat) : List Nat :=
  BYTE_MESSAGE :: (strBytes "  Error: 0x" ++ printHexBytes b ++ [10, 0])

/-- SendDataStart from send.h. -/
def sendDataStartBytes : List Nat := [BYTE_DATA_START]

/-- SendData from send.h: DataElement tag then the record's raw bytes. -/
def sendDataBytes (d : Data) : List Nat :=
  BYTE_DATA_ELEMENT :: serializeData d

/-- SendDataEnd from send.h. -/
def sendDataEndBytes : List Nat := [BYTE_DATA_END]

/-- SendHeartbeat from send.h. -/
def sendHeartbeatBytes : List Nat := [BYTE_HEARTBEAT]

/-- The bytes the ERROR macro emits before it hangs: a SendLine of the
fixed text, then the error marker byte. -/
def errorOutput : List Nat :=
  sendLineBytes [strBytes "---ERROR---"] ++ [BYTE_ERROR]

/-- Control state of the sketch around the ERROR macro: running, or stuck
forever in its terminal busy loop. -/
inductive SysState where
  | running
  | halted
  deriving DecidableEq

/-- One attempt to trigger the fail-stop path.  From the running state the
ERROR macro emits its bytes and enters the busy loop; in the halted state
no code runs, so nothing is emitted. -/
def triggerError : SysState → SysState × List Nat
  | SysState.running => (SysState.halted, errorOutput)
  | SysState.halted => (SysState.halted, [])

/-- All bytes emitted across n successive trigger attempts. -/
def runTriggers : SysState → Nat → List Nat
  | _, 0 => []
  | s, n + 1 => (triggerError s).2 ++ runTriggers (triggerError s).1 n

/-! The MPU6050 side (fast_mpu6050.h).  The I2C traffic the sketch issues
is modelled as a list of Wire commands; bytes read back from the device
are supplied as input. -/

/-- One Wire library call issued on the I2C bus. -/
inductive WireCmd where
  | beginTransmission (addr : Nat)
  | write (b : Nat)
  | endTransmission (stop : Bool)
  | requestFrom (addr : Nat) (count : Nat)
  deriving DecidableEq

/-- Device I2C address (fast_mpu6050.h). -/
def MPU6050_ADDR : Nat := 0x68

/-- Signal path reset register address (fast_mpu6050.h). -/
def MPU6050_SIGNAL_PATH_RESET : Nat := 0x68

/-- Power management register address (fast_mpu6050.h). -/
def MPU6050_PWR_MGMT_1 : Nat := 0x6B

/-- First data register address (fast_mpu6050.h). -/
def MPU6050_DATA_OUT : Nat := 0x3B

/-- The bus commands FillDataMPU6050 issues: address the first data
register, then one burst request for 14 bytes. -/
def fillDataCmds : List WireCmd :=
  [WireCmd.beginTransmission MPU6050_ADDR, WireCmd.write MPU6050_DATA_OUT,
   WireCmd.endTransmission false, WireCmd.requestFrom MPU6050_ADDR 14]

/-- FillDataMPU6050 from fast_mpu6050.h.  bs is the device's response to
the 14-byte burst request; the fourteen Wire.read calls consume it in
order.  Each motion field receives high byte shifted left by 8, or-ed with
the low byte, converted to int16_t; the temperature pair (bytes 6 and 7)
is read and ignored. -/
def fillDataMPU6050 (dat : Data) (bs : List Nat) : Data × List WireCmd :=
  ({ dat with
      lin_acc_x := toInt16 ((bs.getD 0 0 <<< 8) ||| bs.getD 1 0)
      lin_acc_y := toInt16 ((bs.getD 2 0 <<< 8) ||| bs.getD 3 0)
      lin_acc_z := toInt16 ((bs.getD 4 0 <<< 8) ||| bs.getD 5 0)
      rot_vel_x := toInt16 ((bs.getD 8 0 <<< 8) ||| bs.getD 9 0)
      rot_vel_y := toInt16 ((bs.getD 10 0 <<< 8) ||| bs.getD 11 0)
      rot_vel_z := toInt16 ((bs.getD 12 0 <<< 8) ||| bs.getD 13 0) },
   fillDataCmds)

/-- The test SetupMPU6050 applies to each polled status byte:
has_reset is the negation of the DEVICE_RESET bit (bit 7). -/
def resetBitClear (b : Nat) : Bool := b &&& 128 == 0

/-- Commands issued before the wait loop: write the DEVICE_RESET bit of
the power management register. -/
def resetCmds : List WireCmd :=
  [WireCmd.beginTransmission MPU6050_ADDR, WireCmd.write MPU6050_PWR_MGMT_1,
   WireCmd.write 128, WireCmd.endTransmission false]

/-- Commands issued by one iteration of the wait loop: address the power
management register and request one status byte. -/
def pollCmds : List WireCmd :=
  [WireCmd.write MPU6050_PWR_MGMT_1, WireCmd.endTransmission false,
   WireCmd.requestFrom MPU6050_ADDR 1]

/-- Configuration commands issued after the wait loop exits: signal path
reset, then clear sleep mode and select the internal clock. -/
def configCmds : List WireCmd :=
  [WireCmd.beginTransmission MPU6050_ADDR,
   WireCmd.write MPU6050_SIGNAL_PATH_RESET,
   WireCmd.write 7, WireCmd.endTransmission false,
   WireCmd.beginTransmission MPU6050_ADDR, WireCmd.write MPU6050_PWR_MGMT_1,
   WireCmd.write 0, WireCmd.endTransmission true]

/-- The wait loop of SetupMPU6050, run with bounded fuel.  dev gives the
status byte the device returns to the i-th poll (counted from 0); i is the
index of the next poll.  Returns the total number of polls performed and
the commands the loop issued, or none if fuel ran out before the reset bit
read as clear. -/
def setupPoll (dev : Nat → Nat) : Nat → Nat → Option (Nat × List WireCmd)
  | _, 0 => none
  | i, fuel + 1 =>
    if resetBitClear (dev i) then some (i + 1, pollCmds)
    else
      match setupPoll dev (i + 1) fuel with
      | some (k, cs) => some (k, pollCmds ++ cs)
      | none => none

/-- SetupMPU6050 from fast_mpu6050.h, run with bounded fuel on a simulated
device: reset command, the wait loop, then the configuration writes.
Returns the number of polls performed and the full command trace, or none
if the wait loop did not exit within the fuel bound. -/
def setupMPU6050 (dev : Nat → Nat) (fuel : Nat) : Option (Nat × List WireCmd) :=
  match setupPoll dev 0 fuel with
  | some (k, cs) => some (k, resetCmds ++ cs ++ configCmds)
  | none => none

/-! Receiver side of the DataElement payload: decoding the fixed 20-byte
layout back into a record.  Modelled from the wire contract the source
fixes (little-endian AVR layout, fields in declaration order). -/

/-- Decode a 20-byte DataElement payload with the fixed struct Data
layout.  Any other length is malformed. -/
def deserializeData : List Nat → Option Data
  | [m0, m1, m2, m3, a0, a1, b0, b1, x0, x1, y0, y1, z0, z1, p0, p1, q0, q1, r0, r1] =>
    some { micros := m0 + 256 * m1 + 65536 * m2 + 16777216 * m3
           analog := a0 + 256 * a1
           btn_0 := b0
           btn_1 := b1
           lin_acc_x := toInt16 (x0 + 256 * x1)
           lin_acc_y := toInt16 (y0 + 256 * y1)
           lin_acc_z := toInt16 (z0 + 256 * z1)
           rot_vel_x := toInt16 (p0 + 256 * p1)
           rot_vel_y := toInt16 (q0 + 256 * q1)
           rot_vel_z := toInt16 (r0 + 256 * r1) }
  | _ => none

/-- The byte stream of one batch: SendDataStart, one SendData per record,
SendDataEnd. -/
def batchBytes (records : List Data) : List Nat :=
  sendDataStartBytes ++ (records.map sendDataBytes).flatten ++ sendDataEndBytes

/-- Receiver loop for the body of a batch: repeatedly take a DataElement
frame (tag 2 and a 20-byte payload) until the DataEnd tag, returning the
payloads in order.  The batch size is discovered only by counting. -/
def parseElems : List Nat → Option (List (List Nat))
  | [3] => some []
  | 2 :: rest =>
    if 20 ≤ rest.length then
      match parseElems (rest.drop 20) with
      | some ps => some (rest.take 20 :: ps)
      | none => none
    else none
  | _ => none
termination_by bs => bs.length
decreasing_by simp [List.length_drop]; omega

/-- Receiver for one whole batch: a DataStart tag then the batch body. -/
def parseBatch : List Nat → Option (List (List Nat))
  | 1 :: rest => parseElems rest
  | _ => none

/-! Helper lemmas. -/

/-- The variadic print concatenates the renderings in argument order. -/
theorem vsendBytes_eq_flatten (args : List (List Nat)) :
    vsendBytes args = args.flatten := by
  induction args with
  | nil => rfl
  | cons a rest ih => simp [vsendBytes, ih]

/-- A struct Data always serializes to exactly 20 bytes. -/
theorem serializeData_length (d : Data) : (serializeData d).length = 20 := by
  simp [serializeData, le16, le32]

/-- Every byte of a list of bytes read by position is below 256. -/
theorem getD_lt_256 (bs : List Nat) (h : ∀ b ∈ bs, b < 256) :
    ∀ i, i < bs.length → bs.getD i 0 < 256 := by
  induction bs with
  | nil => intro i hi; simp at hi
  | cons a rest ih =>
    intro i hi
    cases i with
    | zero => simpa using h a (List.mem_cons_self a rest)
    | succ j =>
      simp only [List.getD_cons_succ]
      exact ih (fun b hb => h b (List.mem_cons_of_mem a hb)) j (by simpa using hi)

/-- Shifting the high byte left by 8 and or-ing in a low byte below 256 is
the big-endian pairing of the two bytes. -/
theorem shiftLeft_or_byte (hi lo : Nat) (h : lo < 256) :
    (hi <<< 8) ||| lo = 256 * hi + lo := by
  have h2 : 2 ^ 8 * hi + lo = 2 ^ 8 * hi ||| lo :=
    Nat.mul_add_lt_is_or (show lo < 2 ^ 8 by omega) hi
  rw [Nat.shiftLeft_eq, Nat.mul_comm hi (2 ^ 8), ← h2]
  norm_num

/-- Encoding an in-range signed 16-bit value to its two little-endian
memory bytes and reassembling them recovers the value. -/
theorem int16_roundtrip (x : Int) (h1 : -32768 ≤ x) (h2 : x < 32768) :
    toInt16 (int16Bits x % 256 + 256 * (int16Bits x / 256 % 256)) = x := by
  unfold toInt16 int16Bits
  split <;> omega

/-- Emissions after the fail-stop state are empty: the busy loop runs no
code. -/
theorem runTriggers_halted (n : Nat) : runTriggers SysState.halted n = [] := by
  induction n with
  | zero => rfl
  | succ m ih => simp [runTriggers, triggerError, ih]

/-- C6: for every argument list, Send emits exactly the Message tag byte 0,
the concatenation of the default text rendering of each argument in
argument order, and a single zero byte; SendLine emits the same with one
line-feed byte immediately before the zero byte. -/
theorem send_message_frames (args : List (List Nat)) :
    sendBytes args = [BYTE_MESSAGE] ++ args.flatten ++ [0] ∧
    sendLineBytes args = [BYTE_MESSAGE] ++ args.flatten ++ [10, 0] := by
  constructor <;> simp [sendBytes, sendLineBytes, vsendBytes_eq_flatten]

/-- C8: FillDataMPU6050 leaves the record's micros, analog, btn_0 and
btn_1 fields unchanged for every prior record and every bus response; only
the six motion fields are written. -/
theorem fillData_frame_fields (d : Data) (bs : List Nat) :
    (fillDataMPU6050 d bs).1.micros = d.micros ∧
    (fillDataMPU6050 d bs).1.analog = d.analog ∧
    (fillDataMPU6050 d bs).1.btn_0 = d.btn_0 ∧
    (fillDataMPU6050 d bs).1.btn_1 = d.btn_1 :=
  ⟨rfl, rfl, rfl, rfl⟩

/-- C9: the DataElement frame for any record is exactly 21 bytes long: the
tag byte plus a fixed 20-byte payload, so a receiver must consume exactly
20 payload bytes per DataElement frame. -/
theorem dataElement_frame_length (d : Data) :
    (sendDataBytes d).length = 21 ∧ (serializeData d).length = 20 := by
  refine ⟨?_, serializeData_length d⟩
  simp [sendDataBytes, serializeData_length]

/-- C10: every framing operation is deterministic: equal arguments (and
equal record contents) give identical byte sequences, and the argumentless
frames are fixed constants. -/
theorem framing_deterministic :
    (∀ a1 a2 : List (List Nat), a1 = a2 → sendBytes a1 = sendBytes a2) ∧
    (∀ a1 a2 : List (List Nat), a1 = a2 → sendLineBytes a1 = sendLineBytes a2) ∧
    (∀ b1 b2 : Nat, b1 = b2 → sendErrorCodeBytes b1 = sendErrorCodeBytes b2) ∧
    (∀ d1 d2 : Data, d1 = d2 → sendDataBytes d1 = sendDataBytes d2) ∧
    sendDataStartBytes = [BYTE_DATA_START] ∧
    sendDataEndBytes = [BYTE_DATA_END] ∧
    sendHeartbeatBytes = [BYTE_HEARTBEAT] :=
  ⟨fun _ _ h => by rw [h], fun _ _ h => by rw [h], fun _ _ h => by rw [h],
   fun _ _ h => by rw [h], rfl, rfl, rfl⟩

/-- Witness for framing_deterministic at concrete arguments. -/
theorem framing_deterministic_witness :
    sendBytes [strBytes "hi"] = sendBytes [strBytes "hi"] ∧
    sendErrorCodeBytes 7 = sendErrorCodeBytes 7 :=
  ⟨framing_deterministic.1 [strBytes "hi"] [strBytes "hi"] rfl,
   framing_deterministic.2.2.1 7 7 rfl⟩

/-- C2: triggering the fail-stop path emits, in order, one Message frame
with text "---ERROR---" and line semantics (line feed immediately before
the zero terminator), then the single ErrorMarker byte 255, and no further
bytes regardless of how many additional trigger attempts follow. -/
theorem error_failstop (n : Nat) (h : 1 ≤ n) :
    runTriggers SysState.running n =
      [BYTE_MESSAGE] ++ strBytes "---ERROR---" ++ [10, 0] ++ [BYTE_ERROR] := by
  obtain ⟨m, rfl⟩ : ∃ m, n = m + 1 := ⟨n - 1, by omega⟩
  simp [runTriggers, triggerError, runTriggers_halted, errorOutput,
    sendLineBytes, vsendBytes]

/-- Witness for error_failstop: three trigger attempts still emit only the
single error sequence. -/
theorem error_failstop_witness :
    runTriggers SysState.running 3 =
      [BYTE_MESSAGE] ++ strBytes "---ERROR---" ++ [10, 0] ++ [BYTE_ERROR] :=
  error_failstop 3 (by omega)

/-- C1: FillDataMPU6050 issues exactly one burst transaction, addressing
the first data register and requesting 14 bytes, and decodes the response
as signed 16-bit big-endian values in fixed order accel-x, accel-y,
accel-z, temperature, gyro-x, gyro-y, gyro-z: each motion field receives
the big-endian pairing of its two bytes, and the temperature pair (bytes 6
and 7) is read but appears nowhere in the record. -/
theorem fillData_burst_decode (d : Data) (bs : List Nat)
    (hlen : bs.length = 14) (hbytes : ∀ b ∈ bs, b < 256) :
    (fillDataMPU6050 d bs).2 =
      [WireCmd.beginTransmission MPU6050_ADDR, WireCmd.write MPU6050_DATA_OUT,
       WireCmd.endTransmission false, WireCmd.requestFrom MPU6050_ADDR 14] ∧
    (fillDataMPU6050 d bs).1 =
      { d with
        lin_acc_x := toInt16 (256 * bs.getD 0 0 + bs.getD 1 0)
        lin_acc_y := toInt16 (256 * bs.getD 2 0 + bs.getD 3 0)
        lin_acc_z := toInt16 (256 * bs.getD 4 0 + bs.getD 5 0)
        rot_vel_x := toInt16 (256 * bs.getD 8 0 + bs.getD 9 0)
        rot_vel_y := toInt16 (256 * bs.getD 10 0 + bs.getD 11 0)
        rot_vel_z := toInt16 (256 * bs.getD 12 0 + bs.getD 13 0) } := by
  refine ⟨rfl, ?_⟩
  have h1 := getD_lt_256 bs hbytes 1 (by omega)
  have h3 := getD_lt_256 bs hbytes 3 (by omega)
  have h5 := getD_lt_256 bs hbytes 5 (by omega)
  have h9 := getD_lt_256 bs hbytes 9 (by omega)
  have h11 := getD_lt_256 bs hbytes 11 (by omega)
  have h13 := getD_lt_256 bs hbytes 13 (by omega)
  simp only [fillDataMPU6050]
  rw [shiftLeft_or_byte _ _ h1, shiftLeft_or_byte _ _ h3,
      shiftLeft_or_byte _ _ h5, shiftLeft_or_byte _ _ h9,
      shiftLeft_or_byte _ _ h11, shiftLeft_or_byte _ _ h13]

/-- An all-zero record for witnesses. -/
def dataW : Data := ⟨0, 0, 0, 0, 0, 0, 0, 0, 0, 0⟩

/-- A concrete 14-byte bus response for witnesses. -/
def busW : List Nat := [1, 2, 3, 4, 5, 6, 7, 8, 9, 10, 11, 12, 13, 14]

/-- Witness for fillData_burst_decode on a concrete 14-byte response. -/
theorem fillData_burst_decode_witness :
    (fillDataMPU6050 dataW busW).2 =
      [WireCmd.beginTransmission MPU6050_ADDR, WireCmd.write MPU6050_DATA_OUT,
       WireCmd.endTransmission false, WireCmd.requestFrom MPU6050_ADDR 14] ∧
    (fillDataMPU6050 dataW busW).1 =
      { dataW with
        lin_acc_x := toInt16 (256 * busW.getD 0 0 + busW.getD 1 0)
        lin_acc_y := toInt16 (256 * busW.getD 2 0 + busW.getD 3 0)
        lin_acc_z := toInt16 (256 * busW.getD 4 0 + busW.getD 5 0)
        rot_vel_x := toInt16 (256 * busW.getD 8 0 + busW.getD 9 0)
        rot_vel_y := toInt16 (256 * busW.getD 10 0 + busW.getD 11 0)
        rot_vel_z := toInt16 (256 * busW.getD 12 0 + busW.getD 13 0) } :=
  fillData_burst_decode dataW busW (by decide) (by decide)

/-- Every hexadecimal digit character is a decimal digit or an uppercase
letter A through F. -/
theorem hexChar_range (d : Nat) (h : d < 16) :
    (48 ≤ hexChar d ∧ hexChar d ≤ 57) ∨ (65 ≤ hexChar d ∧ hexChar d ≤ 70) := by
  unfold hexChar
  split <;> omega

/-- C4 counterexample: SendErrorCode(0x0A) does not produce the
zero-padded text "  Error: 0x0A" (with or without the line feed the code
appends); it produces the single-digit text "  Error: 0xA". -/
theorem sendErrorCode_pad_counterexample :
    sendErrorCodeBytes 10 ≠
      BYTE_MESSAGE :: (strBytes "  Error: 0x0A" ++ [10, 0]) ∧
    sendErrorCodeBytes 10 ≠
      BYTE_MESSAGE :: (strBytes "  Error: 0x0A" ++ [0]) ∧
    sendErrorCodeBytes 10 =
      BYTE_MESSAGE :: (strBytes "  Error: 0xA" ++ [10, 0]) := by
  refine ⟨?_, ?_, ?_⟩ <;>
    (rw [sendErrorCodeBytes, printHexBytes, hexRevDigits]; simp [hexChar]; decide)

/-- C4 amended: SendErrorCode(b) emits a Message frame with the fixed
prefix "  Error: 0x" followed by the minimal-width uppercase hexadecimal
digits of b (one digit when b is below 16, two digits otherwise, with no
zero padding), a line feed, and the zero terminator; every digit character
is 0 to 9 or uppercase A to F. -/
theorem sendErrorCode_format (b : Nat) (hb : b < 256) :
    sendErrorCodeBytes b =
      BYTE_MESSAGE :: (strBytes "  Error: 0x" ++
        (if b < 16 then [hexChar b] else [hexChar (b / 16), hexChar (b % 16)]) ++
        [10, 0]) ∧
    ∀ c ∈ (if b < 16 then [hexChar b] else [hexChar (b / 16), hexChar (b % 16)]),
      (48 ≤ c ∧ c ≤ 57) ∨ (65 ≤ c ∧ c ≤ 70) := by
  constructor
  · rw [sendErrorCodeBytes, printHexBytes, hexRevDigits]
    by_cases h16 : b < 16
    · simp [h16]
    · rw [dif_neg h16, hexRevDigits, dif_pos (show b / 16 < 16 by omega)]
      simp [h16]
  · intro c hc
    by_cases h16 : b < 16
    · simp [h16] at hc
      subst hc
      exact hexChar_range b (by omega)
    · simp [h16] at hc
      rcases hc with hc | hc <;> subst hc
      · exact hexChar_range (b / 16) (by omega)
      · exact hexChar_range (b % 16) (by omega)

/-- Witness for sendErrorCode_format at the byte 0x0A. -/
theorem sendErrorCode_format_witness :
    sendErrorCodeBytes 10 =
      BYTE_MESSAGE :: (strBytes "  Error: 0x" ++
        (if 10 < 16 then [hexChar 10] else [hexChar (10 / 16), hexChar (10 % 16)]) ++
        [10, 0]) ∧
    ∀ c ∈ (if 10 < 16 then [hexChar 10] else [hexChar (10 / 16), hexChar (10 % 16)]),
      (48 ≤ c ∧ c ≤ 57) ∨ (65 ≤ c ∧ c ≤ 70) :=
  sendErrorCode_format 10 (by omega)

/-- C5: serializing any in-range Sample Record with SendData into a
DataElement frame (tag byte 2 followed by the record's raw bytes in native
byte order) and deserializing the payload with the same fixed layout
returns a record equal to the original in every field. -/
theorem sendData_roundtrip (d : Data) (h : dataValid d) :
    sendDataBytes d = BYTE_DATA_ELEMENT :: serializeData d ∧
    deserializeData (serializeData d) = some d := by
  refine ⟨rfl, ?_⟩
  cases d with
  | mk mi an b0 b1 ax ay az gx gy gz =>
    simp only [dataValid] at h
    obtain ⟨h1, h2, h3, h4, ⟨hax1, hax2⟩, ⟨hay1, hay2⟩, ⟨haz1, haz2⟩,
      ⟨hgx1, hgx2⟩, ⟨hgy1, hgy2⟩, ⟨hgz1, hgz2⟩⟩ := h
    simp only [serializeData, le16, le32, List.cons_append, List.nil_append,
      deserializeData, Option.some.injEq, Data.mk.injEq]
    refine ⟨by omega, by omega, by omega, by omega,
      int16_roundtrip ax hax1 hax2, int16_roundtrip ay hay1 hay2,
      int16_roundtrip az haz1 haz2, int16_roundtrip gx hgx1 hgx2,
      int16_roundtrip gy hgy1 hgy2, int16_roundtrip gz hgz1 hgz2⟩

/-- The concrete Sample Record of the round-trip test vector. -/
def recordW : Data := ⟨123456, 512, 1, 0, 100, -200, 300, -50, 0, 50⟩

/-- Witness for sendData_roundtrip at the spec's concrete record. -/
theorem sendData_roundtrip_witness :
    sendDataBytes recordW = BYTE_DATA_ELEMENT :: serializeData recordW ∧
    deserializeData (serializeData recordW) = some recordW :=
  sendData_roundtrip recordW (by decide)

/-- The receiver of a batch body recovers exactly the serialized records,
in order. -/
theorem parseElems_batch (records : List Data) :
    parseElems ((records.map sendDataBytes).flatten ++ [3]) =
      some (records.map serializeData) := by
  induction records with
  | nil =>
    simp only [List.map_nil, List.flatten_nil, List.nil_append]
    rw [parseElems]
  | cons r rest ih =>
    simp only [List.map_cons, List.flatten_cons, sendDataBytes,
      BYTE_DATA_ELEMENT, List.cons_append, List.append_assoc]
    rw [parseElems]
    rw [if_pos (by simp [serializeData_length])]
    rw [List.drop_left' (serializeData_length r),
      List.take_left' (serializeData_length r)]
    rw [ih]

/-- C7: for every list of records (the empty batch included), the byte
stream of one SendDataStart, one SendData per record, and one SendDataEnd
is exactly one DataStart frame, one DataElement frame per record, and one
DataEnd frame, with no count field: the receiver recovers the records only
by counting DataElement frames between the markers. -/
theorem batch_framing (records : List Data) :
    batchBytes records =
      [BYTE_DATA_START] ++ (records.map sendDataBytes).flatten ++ [BYTE_DATA_END] ∧
    parseBatch (batchBytes records) = some (records.map serializeData) ∧
    (records.map sendDataBytes).length = records.length := by
  refine ⟨rfl, ?_, by simp⟩
  show parseBatch (batchBytes records) = _
  have hshape : batchBytes records =
      1 :: ((records.map sendDataBytes).flatten ++ [3]) := by
    simp [batchBytes, sendDataStartBytes, sendDataEndBytes,
      BYTE_DATA_START, BYTE_DATA_END]
  rw [hshape]
  show parseElems ((records.map sendDataBytes).flatten ++ [3]) = _
  exact parseElems_batch records

/-- If the reset bit never reads as clear, the wait loop exhausts any
fuel bound without exiting, from any starting poll index. -/
theorem setupPoll_never (dev : Nat → Nat)
    (h : ∀ j, resetBitClear (dev j) = false) :
    ∀ fuel i, setupPoll dev i fuel = none := by
  intro fuel
  induction fuel with
  | zero => intro i; rfl
  | succ m ih =>
    intro i
    simp [setupPoll, h i, ih (i + 1)]

/-- If the first clear status reading is the one at offset k from the
starting index, the wait loop performs exactly k+1 polls whenever the fuel
bound allows it. -/
theorem setupPoll_first_clear (dev : Nat → Nat) :
    ∀ k i fuel, (∀ j, j < k → resetBitClear (dev (i + j)) = false) →
      resetBitClear (dev (i + k)) = true → k < fuel →
      setupPoll dev i fuel =
        some (i + k + 1, (List.replicate (k + 1) pollCmds).flatten) := by
  intro k
  induction k with
  | zero =>
    intro i fuel h1 h2 hf
    obtain ⟨f, rfl⟩ : ∃ f, fuel = f + 1 := ⟨fuel - 1, by omega⟩
    have h0 : resetBitClear (dev i) = true := by simpa using h2
    simp [setupPoll, h0]
  | succ m ih =>
    intro i fuel h1 h2 hf
    obtain ⟨f, rfl⟩ : ∃ f, fuel = f + 1 := ⟨fuel - 1, by omega⟩
    have h0 : resetBitClear (dev i) = false := by simpa using h1 0 (by omega)
    have hrec := ih (i + 1) f
      (by
        intro j hj
        have := h1 (j + 1) (by omega)
        have harg : i + (j + 1) = i + 1 + j := by omega
        rwa [harg] at this)
      (by
        have harg : i + (m + 1) = i + 1 + m := by omega
        rwa [harg] at h2)
      (by omega)
    have harith : i + 1 + m + 1 = i + (m + 1) + 1 := by omega
    simp [setupPoll, h0, hrec, harith, List.replicate_succ]

/-- C3: on a simulated device whose reset-status bit first reads as clear
on the k-th poll (0-based index k, so k+1 polls in total), SetupMPU6050
performs exactly that many polls and then proceeds to the configuration
writes, for every sufficient fuel bound; on a device whose bit never reads
clear, SetupMPU6050 exhausts every fuel bound without completing: the
loop has no timeout and no backoff. -/
theorem setup_reset_wait (dev : Nat → Nat) :
    (∀ k, (∀ j, j < k → resetBitClear (dev j) = false) →
      resetBitClear (dev k) = true → ∀ fuel, k < fuel →
      setupMPU6050 dev fuel =
        some (k + 1, resetCmds ++ (List.replicate (k + 1) pollCmds).flatten ++
          configCmds)) ∧
    ((∀ j, resetBitClear (dev j) = false) →
      ∀ fuel, setupMPU6050 dev fuel = none) := by
  constructor
  · intro k h1 h2 fuel hf
    have := setupPoll_first_clear dev k 0 fuel
      (by intro j hj; simpa using h1 j hj) (by simpa using h2) hf
    simp [setupMPU6050, this]
  · intro h fuel
    simp [setupMPU6050, setupPoll_never dev h fuel 0]

/-- A simulated device whose reset bit reads as set on the first two polls
and as clear from the third poll on. -/
def devClearAt2 : Nat → Nat := fun j => if j < 2 then 128 else 0

/-- A simulated device whose reset bit never reads as clear. -/
def devNeverClear : Nat → Nat := fun _ => 128

/-- Witness for setup_reset_wait: the device that clears on its third poll
takes exactly three polls before the configuration writes, and the device
that never clears exhausts a concrete fuel bound. -/
theorem setup_reset_wait_witness :
    setupMPU6050 devClearAt2 5 =
      some (3, resetCmds ++ (List.replicate 3 pollCmds).flatten ++ configCmds) ∧
    setupMPU6050 devNeverClear 4 = none :=
  ⟨(setup_reset_wait devClearAt2).1 2 (by decide) (by decide) 5 (by omega),
   (setup_reset_wait devNeverClear).2 (fun j => show resetBitClear 128 = false by decide) 4⟩

end DataLogger
